import Mathlib

/-!
Movement Hierarchy Engine: a shallow embedding.

This file embeds the Movement Hierarchy Engine of the data-center logistics
simulation (the `AIAgent` and `MovementManagementSystem` classes of
`src/js/ai_intelligence.js`) as executable Lean definitions, and proves or
refutes the specified properties of the hierarchy rule table, the path
planner, the movement executor and the two background queue processes.

Modelling conventions:
* zone types, hardware types and location labels are `String`s, as in the
  source;
* items are identified by a `Nat` id; a zone's `occupants` array holds ids;
* object references are modelled by indices into the zone registry list;
* the single-threaded mutable game state is passed explicitly: an operation
  of the source that mutates state becomes a function returning the new
  `GameState`;
* `Math.random()` draws are injected as explicit rational / natural
  parameters;
* a `setTimeout`-scheduled call is returned as an explicit `ScheduledMove`
  value instead of being fired.
-/

/-- The movement hierarchy rule table (`AIAgent.movementRules`).
`loading-dock` is the spec's dock, `qc-station` the inspection station,
`server-rack` the rack slot and `recycle-bin` the recycle sink. -/
def movementRules (fromType : String) : Option (List String) :=
  if fromType = "loading-dock" then some ["qc-station"]
  else if fromType = "qc-station" then some ["storage-bin", "recycle-bin"]
  else if fromType = "storage-bin" then some ["server-rack", "storage-bin"]
  else if fromType = "server-rack" then some ["recycle-bin"]
  else if fromType = "recycle-bin" then some []
  else none

/-- Embeds `AIAgent.isMovementAllowed`: the destination list exists and contains
the target type. -/
def isMovementAllowed (fromZoneType toZoneType : String) : Bool :=
  match movementRules fromZoneType with
  | some allowedDestinations => allowedDestinations.contains toZoneType
  | none => false

/-- Embeds `AIAgent.getValidDestinations`: `movementRules[t] || []`. -/
def getValidDestinations (currentZoneType : String) : List String :=
  (movementRules currentZoneType).getD []

/-- Embeds `AIAgent.canMoveBetweenSameType`: same-type transfer is whitelisted for
loading docks and storage bins; the hardware type argument is ignored by the
source. -/
def canMoveBetweenSameType (zoneType : String) (hardwareType : String) : Bool :=
  ["loading-dock", "storage-bin"].contains zoneType

/-- Embeds `AIAgent.estimateMovementTime`: `baseTimes[from]?.[to] || 60`. -/
def estimateMovementTime (fromZone toZone : String) : Nat :=
  if fromZone = "loading-dock" then
    (if toZone = "qc-station" then 45 else 60)
  else if fromZone = "qc-station" then
    (if toZone = "storage-bin" then 30 else if toZone = "recycle-bin" then 20 else 60)
  else if fromZone = "storage-bin" then
    (if toZone = "server-rack" then 60 else if toZone = "storage-bin" then 25 else 60)
  else if fromZone = "server-rack" then
    (if toZone = "recycle-bin" then 40 else 60)
  else 60

/-- A movement plan as produced by `planMovementPath` / `findIndirectPath`.
The source leaves `sameType` absent (falsy) except in the same-type branch. -/
structure MovementPlan where
  path : List String
  direct : Bool
  sameType : Bool
  estimatedTime : Nat
  deriving Repr, DecidableEq

/-- A breadth-first-search work-queue entry of `findIndirectPath`. -/
structure BfsEntry where
  zone : String
  path : List String
  time : Nat
  deriving Repr, DecidableEq

/-- The body of the `for (const nextZone of validDestinations)` loop of
`findIndirectPath`: either an early return with a finished plan, or the
updated visited set and work queue. -/
def processSuccessors (toZone : String) (current : BfsEntry) :
    List String → List String → List BfsEntry →
    Option MovementPlan × List String × List BfsEntry
  | [], visited, queue => (none, visited, queue)
  | nextZone :: rest, visited, queue =>
    if nextZone = toZone then
      (some { path := current.path ++ [nextZone], direct := false, sameType := false,
              estimatedTime := current.time + estimateMovementTime current.zone nextZone },
       visited, queue)
    else if visited.contains nextZone then
      processSuccessors toZone current rest visited queue
    else
      processSuccessors toZone current rest (nextZone :: visited)
        (queue ++ [{ zone := nextZone, path := current.path ++ [nextZone],
                     time := current.time + estimateMovementTime current.zone nextZone }])

/-- The `while (queue.length > 0)` loop of `findIndirectPath`, with explicit
fuel. `none` means the fuel ran out (shown unreachable at fuel 6 below);
`some none` is the source's `return null`. -/
def bfsLoop (toZone : String) :
    Nat → List BfsEntry → List String → Option (Option MovementPlan)
  | 0, _, _ => none
  | _ + 1, [], _ => some none
  | fuel + 1, current :: rest, visited =>
    match processSuccessors toZone current (getValidDestinations current.zone) visited rest with
    | (some plan, _, _) => some (some plan)
    | (none, visited', queue') => bfsLoop toZone fuel queue' visited'

/-- Embeds `AIAgent.findIndirectPath`: breadth-first search over the rule table.
Fuel 6 always suffices (theorem `claim_C10_bfs_terminates`). -/
def findIndirectPath (fromZone toZone : String) : Option MovementPlan :=
  (bfsLoop toZone 6 [{ zone := fromZone, path := [fromZone], time := 0 }] [fromZone]).getD none

/-- The value that `findIndirectPath` computes, tabulated: for each source
key of the rule table, the breadth-first result plan for every reachable
destination. Proved equal to the search below (`bfsLoop_eval`). -/
def bfsResult (a b : String) : Option MovementPlan :=
  if a = "loading-dock" then
    if b = "qc-station" then some ⟨["loading-dock", "qc-station"], false, false, 45⟩
    else if b = "storage-bin" then
      some ⟨["loading-dock", "qc-station", "storage-bin"], false, false, 75⟩
    else if b = "recycle-bin" then
      some ⟨["loading-dock", "qc-station", "recycle-bin"], false, false, 65⟩
    else if b = "server-rack" then
      some ⟨["loading-dock", "qc-station", "storage-bin", "server-rack"], false, false, 135⟩
    else none
  else if a = "qc-station" then
    if b = "storage-bin" then some ⟨["qc-station", "storage-bin"], false, false, 30⟩
    else if b = "recycle-bin" then some ⟨["qc-station", "recycle-bin"], false, false, 20⟩
    else if b = "server-rack" then
      some ⟨["qc-station", "storage-bin", "server-rack"], false, false, 90⟩
    else none
  else if a = "storage-bin" then
    if b = "server-rack" then some ⟨["storage-bin", "server-rack"], false, false, 60⟩
    else if b = "storage-bin" then some ⟨["storage-bin", "storage-bin"], false, false, 25⟩
    else if b = "recycle-bin" then
      some ⟨["storage-bin", "server-rack", "recycle-bin"], false, false, 100⟩
    else none
  else if a = "server-rack" then
    if b = "recycle-bin" then some ⟨["server-rack", "recycle-bin"], false, false, 40⟩
    else none
  else none

/-- One directed edge of the rule graph: `b` is a valid direct destination
of `a` according to the rule table. -/
def RuleEdge (a b : String) : Prop := b ∈ getValidDestinations a

/-- Reachability in the rule graph by at least one edge: the "a path exists
in the rule graph" side of the planner-soundness property. -/
def RuleReach (a b : String) : Prop := Relation.TransGen RuleEdge a b

/-- Boolean tabulation of `RuleReach` on the fixed topology. -/
def reachTable (a b : String) : Bool :=
  (a == "loading-dock" &&
    (b == "qc-station" || b == "storage-bin" || b == "recycle-bin" || b == "server-rack")) ||
  (a == "qc-station" &&
    (b == "storage-bin" || b == "recycle-bin" || b == "server-rack")) ||
  (a == "storage-bin" &&
    (b == "server-rack" || b == "storage-bin" || b == "recycle-bin")) ||
  (a == "server-rack" && b == "recycle-bin")

/-- Sum of the per-edge time estimates along a path of zone types. -/
def pathTimeSum : List String → Nat
  | a :: b :: rest => estimateMovementTime a b + pathTimeSum (b :: rest)
  | _ => 0

/-- A hardware item (`HardwareItem`): identified by `id`; `location` is the
coarse location label, `installTime` the rack install timestamp
(milliseconds, `none` when never set). -/
structure Item where
  id : Nat
  hardwareType : String
  location : String
  installTime : Option Int
  posX : Int
  posY : Int
  deriving Repr, DecidableEq

/-- A zone of the registry (`InteractionZone`): `occupants` holds the ids of
the contained items; `width`/`height` model `zone.size`, `posX`/`posY`
`zone.position`. -/
structure Zone where
  type : String
  capacity : Nat
  occupants : List Nat
  posX : Int
  posY : Int
  width : Nat
  height : Nat
  deriving Repr, DecidableEq

/-- The mutable shared state: the zone registry
(`gameState.zoneManager.getAllZones()`, references modelled as list
indices) and the item collection (`gameState.hardwareItems`). -/
structure GameState where
  zones : List Zone
  items : List Item
  deriving Repr, DecidableEq

/-- Embeds `AIAgent.getZoneTypeFromZone`: `zoneTypeMap[zone.type] || zone.type`. -/
def getZoneTypeFromZone (zone : Zone) : String :=
  if zone.type = "loading-dock" then "loading-dock"
  else if zone.type = "storage-bin" then "storage-bin"
  else if zone.type = "server-rack" then "server-rack"
  else if zone.type = "quality-control" then "qc-station"
  else if zone.type = "recycle-bin" then "recycle-bin"
  else zone.type

/-- Embeds `MovementManagementSystem.getLocationFromZoneType`. -/
def getLocationFromZoneType (zoneType : String) : String :=
  if zoneType = "loading-dock" then "loading-bay"
  else if zoneType = "qc-station" then "quality-control"
  else if zoneType = "storage-bin" then "storage-room"
  else if zoneType = "server-rack" then "server-floor"
  else if zoneType = "recycle-bin" then "recycle-area"
  else "unknown"

/-- Embeds `zone.capacity || 1` of the source: a zero (missing) capacity acts as 1. -/
def zoneCapacityOr1 (zone : Zone) : Nat :=
  if zone.capacity = 0 then 1 else zone.capacity

/-- Embeds `AIAgent.findItemCurrentZone`: the first zone whose occupant list
contains the item. -/
def findItemCurrentZone (item : Item) (gs : GameState) : Option Zone :=
  gs.zones.find? (fun zone => zone.occupants.contains item.id)

/-- Embeds `MovementManagementSystem.findAvailableZone`: index of the first zone of
the requested mapped type with spare capacity (`occupants.length <
(capacity || 1)`). -/
def findAvailableZone (zoneType : String) : List Zone → Option Nat
  | [] => none
  | zone :: rest =>
    if getZoneTypeFromZone zone == zoneType &&
        decide (zone.occupants.length < zoneCapacityOr1 zone) then some 0
    else (findAvailableZone zoneType rest).map (· + 1)

/-- The `occupants.splice(index, 1)` of `removeFromZone`: drop the first
occurrence of the id. -/
def removeFirst (itemId : Nat) : List Nat → List Nat
  | [] => []
  | x :: xs => if x = itemId then xs else x :: removeFirst itemId xs

/-- Embeds `MovementManagementSystem.removeFromZone` on a single zone. -/
def removeFromZone (itemId : Nat) (zone : Zone) : Zone :=
  { zone with occupants := removeFirst itemId zone.occupants }

/-- Detach the item from its current zone, if any: `findItemCurrentZone`
followed by `removeFromZone` — the first zone containing the id loses its
first occurrence. -/
def detachFirst (itemId : Nat) : List Zone → List Zone
  | [] => []
  | zone :: rest =>
    if zone.occupants.contains itemId then removeFromZone itemId zone :: rest
    else zone :: detachFirst itemId rest

/-- Embeds `MovementManagementSystem.calculateZonePosition`: row-major grid fill
with 30x20 items and margin 5. -/
def calculateZonePosition (zone : Zone) (itemIndex : Nat) : Int × Int :=
  let itemsPerRow := zone.width / 35
  let row := itemIndex / itemsPerRow
  let col := itemIndex % itemsPerRow
  (zone.posX + 5 + (col : Int) * 35, zone.posY + 5 + (row : Int) * 25)

/-- Embeds `MovementManagementSystem.addToZone`: push the id and compute the new
occupant's grid position. -/
def addToZone (item : Item) (zone : Zone) : Zone × (Int × Int) :=
  ({ zone with occupants := zone.occupants ++ [item.id] },
   calculateZonePosition zone zone.occupants.length)

/-- Apply an update to the item with the given id in the collection
(reference mutation of the shared item object). -/
def updateItem (itemId : Nat) (f : Item → Item) (items : List Item) : List Item :=
  items.map (fun it => if it.id = itemId then f it else it)

/-- Embeds `AIAgent.planMovementPath`. The state is threaded through to express
that planning has no side effect on it. -/
def planMovementPath (item : Item) (targetZoneType : String) (gs : GameState) :
    Option MovementPlan × GameState :=
  match findItemCurrentZone item gs with
  | none => (none, gs)
  | some currentZone =>
    let currentZoneType := getZoneTypeFromZone currentZone
    if isMovementAllowed currentZoneType targetZoneType then
      (some { path := [currentZoneType, targetZoneType], direct := true, sameType := false,
              estimatedTime := estimateMovementTime currentZoneType targetZoneType }, gs)
    else if currentZoneType == targetZoneType &&
        canMoveBetweenSameType currentZoneType item.hardwareType then
      (some { path := [currentZoneType, targetZoneType], direct := true, sameType := true,
              estimatedTime := estimateMovementTime currentZoneType targetZoneType }, gs)
    else
      (findIndirectPath currentZoneType targetZoneType, gs)

/-- Embeds `MovementManagementSystem.performMovement`: find a destination instance
with room, detach from the current zone, attach to the destination, update
the item's position and location label. -/
def performMovement (item : Item) (targetZoneType : String) (gs : GameState)
    (movementPlan : MovementPlan) : Bool × GameState :=
  match findAvailableZone targetZoneType gs.zones with
  | none => (false, gs)
  | some targetIdx =>
    let zones1 := detachFirst item.id gs.zones
    match zones1[targetIdx]? with
    | none => (false, gs)
    | some targetZone =>
      let (targetZone', position) := addToZone item targetZone
      (true,
       { zones := zones1.set targetIdx targetZone',
         items := updateItem item.id
           (fun it => { it with location := getLocationFromZoneType targetZoneType,
                                posX := position.1, posY := position.2 }) gs.items })

/-- Embeds `MovementManagementSystem.executeMovement`: plan, reject non-direct
multi-hop plans, then perform. -/
def executeMovement (item : Item) (targetZoneType : String) (gs : GameState) :
    Bool × GameState :=
  let planned := planMovementPath item targetZoneType gs
  match planned.1 with
  | none => (false, planned.2)
  | some movementPlan =>
    if !movementPlan.direct && !movementPlan.sameType then (false, planned.2)
    else performMovement item targetZoneType planned.2 movementPlan

/-- A quality-control verdict record (`makeQCDecision` result). -/
structure QCResult where
  itemId : Nat
  hardwareType : String
  passed : Bool
  processingTime : Nat
  issues : List String
  deriving Repr, DecidableEq

/-- Embeds `AIAgent.qcPassRate` (85%). -/
def qcPassRate : ℚ := 85 / 100

/-- Embeds `AIAgent.qcProcessingTime` (seconds per item). -/
def qcProcessingTime : Nat := 30

/-- The possible QC issue texts for failed items. -/
def possibleIssues : List String :=
  ["Physical damage detected", "Component failure", "Specification mismatch",
   "Manufacturing defect", "Compatibility issue"]

/-- Embeds `AIAgent.makeQCDecision`. The `Math.random()` pass draw and the issue
index draw are injected (`passDraw` in `[0,1)`, the issue index modulo the
list length). Metric updates and logging are omitted. -/
def makeQCDecision (item : Item) (passDraw : ℚ) (issueDraw : Nat) : QCResult :=
  { itemId := item.id
    hardwareType := item.hardwareType
    passed := decide (passDraw < qcPassRate)
    processingTime := qcProcessingTime
    issues :=
      if passDraw < qcPassRate then []
      else [possibleIssues.getD (issueDraw % possibleIssues.length) "General hardware failure"] }

/-- A `setTimeout`-scheduled future call of the Movement Executor,
returned explicitly instead of fired. -/
structure ScheduledMove where
  item : Item
  destination : String
  delayMs : Nat
  deriving Repr, DecidableEq

/-- Embeds `MovementManagementSystem.processQCQueue`: if the queue is non-empty and
the first zone of raw type `quality-control` has spare capacity, dequeue the
head item, resolve its verdict, and schedule an `executeMovement` toward
`storage-bin` (pass) or `recycle-bin` (fail) after the processing time.
Returns the new queue, the (unchanged) game state, and the scheduled call. -/
def processQCQueue (qcQueue : List Item) (gs : GameState) (passDraw : ℚ) (issueDraw : Nat) :
    List Item × GameState × Option ScheduledMove :=
  match qcQueue with
  | [] => ([], gs, none)
  | item :: rest =>
    match gs.zones.find? (fun zone => zone.type == "quality-control") with
    | none => (item :: rest, gs, none)
    | some qcStation =>
      if qcStation.occupants.length ≥ qcStation.capacity then (item :: rest, gs, none)
      else
        let qcResult := makeQCDecision item passDraw issueDraw
        let destination := if qcResult.passed then "storage-bin" else "recycle-bin"
        (rest, gs, some { item := item, destination := destination,
                          delayMs := qcResult.processingTime * 1000 })

/-- An RR failure report (`checkRRFailure` result). -/
structure FailureReport where
  itemId : Nat
  hardwareType : String
  timestamp : Int
  failureReason : String
  severity : String
  recommendedAction : String
  deriving Repr, DecidableEq

/-- The category risk-factor table of `checkRRFailure`
(`riskFactors[hardwareType] || 1.0`). -/
def riskFactor (hardwareType : String) : ℚ :=
  if hardwareType = "PSU" then 3 / 2
  else if hardwareType = "HDD" then 2
  else if hardwareType = "SSD" then 1 / 2
  else if hardwareType = "RAM" then 4 / 5
  else if hardwareType = "CPU" then 7 / 10
  else if hardwareType = "GPU" then 6 / 5
  else 1

/-- Embeds `serverRackItem.installTime || Date.now()`: a missing (or zero, by
JavaScript falsiness) install timestamp is replaced by the current time. -/
def installTimeOrNow (item : Item) (now : Int) : Int :=
  match item.installTime with
  | none => now
  | some t => if t = 0 then now else t

/-- Elapsed install time in hours:
`(Date.now() - (installTime || Date.now())) / (1000 * 60 * 60)`. -/
def hoursSinceInstall (item : Item) (now : Int) : ℚ :=
  ((now : ℚ) - (installTimeOrNow item now : ℚ)) / (1000 * 60 * 60)

/-- Base failure rate: 0.1% per hour of operation. -/
def failureRate (item : Item) (now : Int) : ℚ :=
  (1 / 1000) * hoursSinceInstall item now

/-- The category-adjusted failure rate of `checkRRFailure`. -/
def adjustedFailureRate (item : Item) (now : Int) : ℚ :=
  failureRate item now * riskFactor item.hardwareType

/-- The failure-reason table of `generateFailureReason`. -/
def failureReasons (hardwareType : String) : List String :=
  if hardwareType = "PSU" then ["Power output instability", "Capacitor failure", "Overheating"]
  else if hardwareType = "HDD" then
    ["Bad sectors detected", "Mechanical failure", "Read/write errors"]
  else if hardwareType = "SSD" then
    ["Flash memory degradation", "Controller failure", "Wear leveling issues"]
  else if hardwareType = "RAM" then ["Memory corruption", "Timing errors", "Physical damage"]
  else if hardwareType = "CPU" then
    ["Thermal shutdown", "Cache errors", "Instruction pipeline failure"]
  else if hardwareType = "GPU" then
    ["VRAM failure", "Shader unit malfunction", "Thermal throttling"]
  else if hardwareType = "Motherboard" then
    ["Trace damage", "Component failure", "BIOS corruption"]
  else ["General hardware failure"]

/-- Embeds `AIAgent.generateFailureReason` with the random index injected. -/
def generateFailureReason (hardwareType : String) (reasonDraw : Nat) : String :=
  let reasons := failureReasons hardwareType
  reasons.getD (reasonDraw % reasons.length) "General hardware failure"

/-- Embeds `AIAgent.calculateFailureSeverity` with the random draw injected. -/
def calculateFailureSeverity (severityDraw : ℚ) : String :=
  if severityDraw < 2 / 5 then "low"
  else if severityDraw < 7 / 10 then "medium"
  else if severityDraw < 9 / 10 then "high"
  else "critical"

/-- Embeds `AIAgent.checkRRFailure`: Bernoulli failure draw against the
category-adjusted elapsed-time failure rate; `failDraw` is the
`Math.random()` draw in `[0,1)`. -/
def checkRRFailure (item : Item) (now : Int) (failDraw : ℚ)
    (reasonDraw : Nat) (severityDraw : ℚ) : Option FailureReport :=
  if failDraw < adjustedFailureRate item now then
    some { itemId := item.id
           hardwareType := item.hardwareType
           timestamp := now
           failureReason := generateFailureReason item.hardwareType reasonDraw
           severity := calculateFailureSeverity severityDraw
           recommendedAction := "immediate_recycling" }
  else none

/-- An entry of the recycling queue (`{item, failureReport, timestamp}`). -/
structure RecyclingEntry where
  item : Item
  failureReport : FailureReport
  timestamp : Int
  deriving Repr, DecidableEq

/-- The outcome of `processRecyclingQueue`: the drained queue, the final
game state, the deferred calls it scheduled (the source schedules none),
and the number of successful recycling movements
(`metrics.recycledParts` increments). -/
structure RecyclingOutcome where
  queue : List RecyclingEntry
  gs : GameState
  scheduled : List ScheduledMove
  recycled : Nat
  deriving Repr, DecidableEq

/-- Embeds `MovementManagementSystem.processRecyclingQueue`: drain the whole queue,
invoking `executeMovement` toward `recycle-bin` for each entry and counting
successes. No further action is deferred for any entry. -/
def processRecyclingQueue (queue : List RecyclingEntry) (gs : GameState) : RecyclingOutcome :=
  match queue with
  | [] => { queue := [], gs := gs, scheduled := [], recycled := 0 }
  | entry :: rest =>
    let step := executeMovement entry.item "recycle-bin" gs
    let outcome := processRecyclingQueue rest step.2
    { queue := outcome.queue
      gs := outcome.gs
      scheduled := outcome.scheduled
      recycled := (if step.1 then 1 else 0) + outcome.recycled }

/-- Total number of occurrences of an item id across all occupant lists. -/
def itemCountIn (itemId : Nat) (zones : List Zone) : Nat :=
  (zones.map (fun zone => zone.occupants.count itemId)).sum

/-- Exclusive ownership, counting multiplicity: every id occurs at most
once in the concatenation of all occupant lists. -/
def ExclusiveCount (gs : GameState) : Prop :=
  ∀ i : Nat, itemCountIn i gs.zones ≤ 1

/-- The claim's literal exclusivity reading: every id appears in the
occupant list of at most one zone (multiplicity inside one list not
counted). -/
def AppearsAtMostOneZone (gs : GameState) : Prop :=
  ∀ i : Nat, gs.zones.countP (fun zone => zone.occupants.contains i) ≤ 1

/-- Capacity invariant: `occupants.length <= capacity` for every zone. -/
def CapacityOk (gs : GameState) : Prop :=
  ∀ zone ∈ gs.zones, zone.occupants.length ≤ zone.capacity

/-- The data model's `capacity (integer >= 1)` requirement. -/
def CapacityAtLeastOne (gs : GameState) : Prop :=
  ∀ zone ∈ gs.zones, 1 ≤ zone.capacity

/-- The combined legality test of the planner's first two branches: the rule
table, or a whitelisted same-type transfer. -/
def movementLegal (fromType toType hardwareType : String) : Bool :=
  isMovementAllowed fromType toType ||
    (fromType == toType && canMoveBetweenSameType fromType hardwareType)

/-- Example item for the exclusivity counterexample: id 1, duplicated in
the dock's occupant list. -/
def dupItem : Item :=
  { id := 1, hardwareType := "CPU", location := "loading-bay", installTime := none,
    posX := 0, posY := 0 }

def dupDock : Zone :=
  { type := "loading-dock", capacity := 2, occupants := [1, 1], posX := 0, posY := 0,
    width := 100, height := 50 }

def emptyQC : Zone :=
  { type := "qc-station", capacity := 1, occupants := [], posX := 200, posY := 0,
    width := 100, height := 50 }

def gsDup : GameState := { zones := [dupDock, emptyQC], items := [dupItem] }

/-- Item sitting alone in a dock, for witnesses. -/
def soloItem : Item :=
  { id := 2, hardwareType := "RAM", location := "loading-bay", installTime := none,
    posX := 0, posY := 0 }

def soloDock : Zone :=
  { type := "loading-dock", capacity := 1, occupants := [2], posX := 0, posY := 0,
    width := 100, height := 50 }

def gsSolo : GameState := { zones := [soloDock, emptyQC], items := [soloItem] }

/-- A full inspection station, for the capacity-exhausted witness. -/
def fullQC : Zone :=
  { type := "qc-station", capacity := 1, occupants := [6], posX := 200, posY := 0,
    width := 100, height := 50 }

def blockedItem : Item :=
  { id := 6, hardwareType := "SSD", location := "quality-control", installTime := none,
    posX := 0, posY := 0 }

def gsFull : GameState := { zones := [soloDock, fullQC], items := [soloItem, blockedItem] }

/-- QC-drain example: one dock item queued, an empty `quality-control` zone. -/
def queuedItem : Item :=
  { id := 5, hardwareType := "GPU", location := "loading-bay", installTime := none,
    posX := 0, posY := 0 }

def rawQCZone : Zone :=
  { type := "quality-control", capacity := 2, occupants := [], posX := 200, posY := 0,
    width := 100, height := 50 }

def qcDock : Zone :=
  { type := "loading-dock", capacity := 1, occupants := [5], posX := 0, posY := 0,
    width := 100, height := 50 }

def gsQC : GameState := { zones := [qcDock, rawQCZone], items := [queuedItem] }

/-- Recycling example: a failed item in a rack slot and an empty sink. -/
def failedItem : Item :=
  { id := 7, hardwareType := "PSU", location := "server-floor", installTime := some 1000,
    posX := 0, posY := 0 }

def rackZone : Zone :=
  { type := "server-rack", capacity := 1, occupants := [7], posX := 0, posY := 100,
    width := 100, height := 50 }

def sinkZone : Zone :=
  { type := "recycle-bin", capacity := 100, occupants := [], posX := 0, posY := 200,
    width := 400, height := 80 }

def gsRecycle : GameState := { zones := [rackZone, sinkZone], items := [failedItem] }

def failedReport : FailureReport :=
  { itemId := 7, hardwareType := "PSU", timestamp := 2000,
    failureReason := "Capacitor failure", severity := "high",
    recommendedAction := "immediate_recycling" }

def failedEntry : RecyclingEntry :=
  { item := failedItem, failureReport := failedReport, timestamp := 2000 }

/-- An item tracked by no zone, with a roomy recycle sink available. -/
def lostItem : Item :=
  { id := 9, hardwareType := "HDD", location := "unknown", installTime := none,
    posX := 0, posY := 0 }

def gsLost : GameState := { zones := [sinkZone], items := [lostItem] }

/-- A rack occupant with an unset install timestamp. -/
def freshItem : Item :=
  { id := 11, hardwareType := "HDD", location := "server-floor", installTime := none,
    posX := 0, posY := 0 }

theorem bfsLoop_eval (a b : String) :
    bfsLoop b 6 [{ zone := a, path := [a], time := 0 }] [a] = some (bfsResult a b) := by
  by_cases ha1 : a = "loading-dock"
  · subst ha1
    by_cases h1 : "qc-station" = b
    · subst h1; rfl
    · by_cases h2 : "storage-bin" = b
      · subst h2; rfl
      · by_cases h3 : "recycle-bin" = b
        · subst h3; rfl
        · by_cases h4 : "server-rack" = b
          · subst h4; rfl
          · simp [bfsLoop, processSuccessors, getValidDestinations, movementRules,
              estimateMovementTime, bfsResult, h1, h2, h3, h4,
              Ne.symm h1, Ne.symm h2, Ne.symm h3, Ne.symm h4]
  · by_cases ha2 : a = "qc-station"
    · subst ha2
      by_cases h1 : "storage-bin" = b
      · subst h1; rfl
      · by_cases h2 : "recycle-bin" = b
        · subst h2; rfl
        · by_cases h3 : "server-rack" = b
          · subst h3; rfl
          · simp [bfsLoop, processSuccessors, getValidDestinations, movementRules,
              estimateMovementTime, bfsResult, h1, h2, h3,
              Ne.symm h1, Ne.symm h2, Ne.symm h3]
    · by_cases ha3 : a = "storage-bin"
      · subst ha3
        by_cases h1 : "server-rack" = b
        · subst h1; rfl
        · by_cases h2 : "storage-bin" = b
          · subst h2; rfl
          · by_cases h3 : "recycle-bin" = b
            · subst h3; rfl
            · simp [bfsLoop, processSuccessors, getValidDestinations, movementRules,
                estimateMovementTime, bfsResult, h1, h2, h3,
                Ne.symm h1, Ne.symm h2, Ne.symm h3]
      · by_cases ha4 : a = "server-rack"
        · subst ha4
          by_cases h1 : "recycle-bin" = b
          · subst h1; rfl
          · simp [bfsLoop, processSuccessors, getValidDestinations, movementRules,
              estimateMovementTime, bfsResult, h1, Ne.symm h1]
        · by_cases ha5 : a = "recycle-bin"
          · subst ha5; rfl
          · simp [bfsLoop, processSuccessors, getValidDestinations, movementRules,
              bfsResult, ha1, ha2, ha3, ha4, ha5]

theorem findIndirectPath_eq (a b : String) : findIndirectPath a b = bfsResult a b := by
  unfold findIndirectPath
  rw [bfsLoop_eval]
  rfl

theorem ruleEdge_cases {x y : String} (h : RuleEdge x y) :
    (x = "loading-dock" ∧ y = "qc-station") ∨
    (x = "qc-station" ∧ y = "storage-bin") ∨
    (x = "qc-station" ∧ y = "recycle-bin") ∨
    (x = "storage-bin" ∧ y = "server-rack") ∨
    (x = "storage-bin" ∧ y = "storage-bin") ∨
    (x = "server-rack" ∧ y = "recycle-bin") := by
  unfold RuleEdge getValidDestinations movementRules at h
  split_ifs at h with e1 e2 e3 e4 e5 <;> simp_all

theorem reachTable_cases {a b : String} (h : reachTable a b = true) :
    (a = "loading-dock" ∧ (b = "qc-station" ∨ b = "storage-bin" ∨ b = "recycle-bin" ∨ b = "server-rack")) ∨
    (a = "qc-station" ∧ (b = "storage-bin" ∨ b = "recycle-bin" ∨ b = "server-rack")) ∨
    (a = "storage-bin" ∧ (b = "server-rack" ∨ b = "storage-bin" ∨ b = "recycle-bin")) ∨
    (a = "server-rack" ∧ b = "recycle-bin") := by
  simp only [reachTable, Bool.or_eq_true, Bool.and_eq_true, beq_iff_eq, or_assoc] at h
  exact h

theorem table_step {a b c : String} (hab : reachTable a b = true) (hbc : RuleEdge b c) :
    reachTable a c = true := by
  rcases reachTable_cases hab with
      ⟨ha, hb | hb | hb | hb⟩ | ⟨ha, hb | hb | hb⟩ | ⟨ha, hb | hb | hb⟩ | ⟨ha, hb⟩ <;>
    rcases ruleEdge_cases hbc with
      ⟨hx, hy⟩ | ⟨hx, hy⟩ | ⟨hx, hy⟩ | ⟨hx, hy⟩ | ⟨hx, hy⟩ | ⟨hx, hy⟩ <;>
    subst ha <;> simp_all [reachTable]

theorem edge_to_table {x y : String} (h : RuleEdge x y) : reachTable x y = true := by
  rcases ruleEdge_cases h with
    ⟨hx, hy⟩ | ⟨hx, hy⟩ | ⟨hx, hy⟩ | ⟨hx, hy⟩ | ⟨hx, hy⟩ | ⟨hx, hy⟩ <;>
    subst hx <;> subst hy <;> rfl

theorem ruleReach_to_table {a b : String} (h : RuleReach a b) : reachTable a b = true := by
  induction h with
  | single h => exact edge_to_table h
  | tail _ h2 ih => exact table_step ih h2

theorem table_to_ruleReach {a b : String} (h : reachTable a b = true) : RuleReach a b := by
  have e1 : RuleEdge "loading-dock" "qc-station" := by unfold RuleEdge; decide
  have e2 : RuleEdge "qc-station" "storage-bin" := by unfold RuleEdge; decide
  have e3 : RuleEdge "qc-station" "recycle-bin" := by unfold RuleEdge; decide
  have e4 : RuleEdge "storage-bin" "server-rack" := by unfold RuleEdge; decide
  have e5 : RuleEdge "storage-bin" "storage-bin" := by unfold RuleEdge; decide
  have e6 : RuleEdge "server-rack" "recycle-bin" := by unfold RuleEdge; decide
  rcases reachTable_cases h with
      ⟨ha, hb | hb | hb | hb⟩ | ⟨ha, hb | hb | hb⟩ | ⟨ha, hb | hb | hb⟩ | ⟨ha, hb⟩ <;>
    subst ha <;> subst hb
  · exact Relation.TransGen.single e1
  · exact Relation.TransGen.tail (Relation.TransGen.single e1) e2
  · exact Relation.TransGen.tail (Relation.TransGen.single e1) e3
  · exact Relation.TransGen.tail (Relation.TransGen.tail (Relation.TransGen.single e1) e2) e4
  · exact Relation.TransGen.single e2
  · exact Relation.TransGen.single e3
  · exact Relation.TransGen.tail (Relation.TransGen.single e2) e4
  · exact Relation.TransGen.single e4
  · exact Relation.TransGen.single e5
  · exact Relation.TransGen.tail (Relation.TransGen.single e4) e6
  · exact Relation.TransGen.single e6

theorem ruleReach_iff_table (a b : String) : RuleReach a b ↔ reachTable a b = true :=
  ⟨ruleReach_to_table, table_to_ruleReach⟩

theorem bfsResult_isSome_eq (a b : String) : (bfsResult a b).isSome = reachTable a b := by
  unfold bfsResult reachTable
  split_ifs <;> simp_all

theorem bfsResult_time {a b : String} {p : MovementPlan} (h : bfsResult a b = some p) :
    p.estimatedTime = pathTimeSum p.path := by
  unfold bfsResult at h
  split_ifs at h <;> simp_all <;> subst h <;> rfl

theorem removeFirst_count_self (i : Nat) (l : List Nat) :
    (removeFirst i l).count i = l.count i - 1 := by
  induction l with
  | nil => rfl
  | cons x xs ih =>
    by_cases hx : x = i
    · subst hx
      simp [removeFirst, List.count_cons]
    · simp [removeFirst, hx, List.count_cons, ih, Ne.symm hx]

theorem removeFirst_count_ne {i j : Nat} (h : j ≠ i) (l : List Nat) :
    (removeFirst i l).count j = l.count j := by
  induction l with
  | nil => rfl
  | cons x xs ih =>
    by_cases hx : x = i
    · subst hx
      simp [removeFirst, List.count_cons, Ne.symm h]
    · simp [removeFirst, hx, List.count_cons, ih]

theorem removeFirst_length_le (i : Nat) (l : List Nat) :
    (removeFirst i l).length ≤ l.length := by
  induction l with
  | nil => exact Nat.le_refl 0
  | cons x xs ih =>
    by_cases hx : x = i
    · simp only [removeFirst, if_pos hx, List.length_cons]
      exact Nat.le_succ _
    · simp only [removeFirst, if_neg hx, List.length_cons]
      exact Nat.succ_le_succ ih

theorem count_pos_of_mem {i : Nat} {l : List Nat} (h : i ∈ l) : 1 ≤ l.count i :=
  List.count_pos_iff.mpr h

theorem detachFirst_length (i : Nat) (zs : List Zone) :
    (detachFirst i zs).length = zs.length := by
  induction zs with
  | nil => rfl
  | cons z rest ih =>
    by_cases hz : i ∈ z.occupants
    · simp [detachFirst, hz]
    · simp [detachFirst, hz, ih]

theorem detachFirst_countIn_self (i : Nat) (zs : List Zone) :
    itemCountIn i (detachFirst i zs) = itemCountIn i zs - 1 := by
  induction zs with
  | nil => rfl
  | cons z rest ih =>
    by_cases hz : i ∈ z.occupants
    · have hpos := count_pos_of_mem hz
      simp [detachFirst, hz, itemCountIn, removeFromZone, removeFirst_count_self]
      omega
    · have hzero : z.occupants.count i = 0 := by
        by_contra hc
        exact hz (List.count_pos_iff.mp (Nat.pos_of_ne_zero hc))
      simp only [detachFirst, hz, if_neg, itemCountIn, List.map_cons, List.sum_cons] at ih ⊢
      simp [hz, hzero, ih]

theorem detachFirst_countIn_ne {i j : Nat} (h : j ≠ i) (zs : List Zone) :
    itemCountIn j (detachFirst i zs) = itemCountIn j zs := by
  induction zs with
  | nil => rfl
  | cons z rest ih =>
    by_cases hz : i ∈ z.occupants
    · simp [detachFirst, hz, itemCountIn, removeFromZone, removeFirst_count_ne h]
    · simp [detachFirst, hz, itemCountIn] at ih ⊢
      omega

theorem detachFirst_pointwise (i : Nat) (zs : List Zone) (k : Nat) {zNew zOld : Zone}
    (h1 : (detachFirst i zs)[k]? = some zNew) (h2 : zs[k]? = some zOld) :
    zNew.capacity = zOld.capacity ∧ zNew.occupants.length ≤ zOld.occupants.length := by
  induction zs generalizing k with
  | nil => simp at h2
  | cons z rest ih =>
    by_cases hz : i ∈ z.occupants
    · simp only [detachFirst, hz, List.elem_eq_mem, decide_eq_true_eq, if_true, ite_true] at h1
      cases k with
      | zero =>
        simp only [List.getElem?_cons_zero, Option.some.injEq] at h1 h2
        rw [← h1, ← h2]
        exact ⟨rfl, removeFirst_length_le i _⟩
      | succ k =>
        simp only [List.getElem?_cons_succ] at h1 h2
        rw [h1] at h2
        cases h2
        exact ⟨rfl, Nat.le_refl _⟩
    · rw [show detachFirst i (z :: rest) = z :: detachFirst i rest by
        simp [detachFirst, hz]] at h1
      cases k with
      | zero =>
        simp only [List.getElem?_cons_zero, Option.some.injEq] at h1 h2
        rw [← h1, ← h2]
        exact ⟨rfl, Nat.le_refl _⟩
      | succ k =>
        simp only [List.getElem?_cons_succ] at h1 h2
        exact ih k h1 h2

theorem count_le_itemCountIn {i : Nat} {zs : List Zone} {k : Nat} {z : Zone}
    (h : zs[k]? = some z) : z.occupants.count i ≤ itemCountIn i zs := by
  induction zs generalizing k with
  | nil => simp at h
  | cons z0 rest ih =>
    cases k with
    | zero =>
      simp only [List.getElem?_cons_zero, Option.some.injEq] at h
      rw [← h]
      simp only [itemCountIn, List.map_cons, List.sum_cons]
      omega
    | succ k =>
      simp only [List.getElem?_cons_succ] at h
      have hrec := ih h
      simp only [itemCountIn, List.map_cons, List.sum_cons] at hrec ⊢
      omega

theorem itemCountIn_set (j : Nat) {zs : List Zone} {t : Nat} {zOld : Zone} (zNew : Zone)
    (h : zs[t]? = some zOld) :
    itemCountIn j (zs.set t zNew) + zOld.occupants.count j =
      itemCountIn j zs + zNew.occupants.count j := by
  induction zs generalizing t with
  | nil => simp at h
  | cons z0 rest ih =>
    cases t with
    | zero =>
      simp only [List.getElem?_cons_zero, Option.some.injEq] at h
      rw [← h]
      simp only [List.set, itemCountIn, List.map_cons, List.sum_cons]
      omega
    | succ t =>
      simp only [List.getElem?_cons_succ] at h
      have hrec := ih h
      simp only [List.set, itemCountIn, List.map_cons, List.sum_cons] at hrec ⊢
      omega

theorem findAvailableZone_spec {zoneType : String} {zs : List Zone} {t : Nat}
    (h : findAvailableZone zoneType zs = some t) :
    ∃ z : Zone, zs[t]? = some z ∧ getZoneTypeFromZone z = zoneType ∧
      z.occupants.length < zoneCapacityOr1 z := by
  induction zs generalizing t with
  | nil =>
    rw [show findAvailableZone zoneType ([] : List Zone) = none from rfl] at h
    cases h
  | cons z0 rest ih =>
    by_cases hc : (getZoneTypeFromZone z0 == zoneType &&
        decide (z0.occupants.length < zoneCapacityOr1 z0)) = true
    · simp only [findAvailableZone, if_pos hc, Option.some.injEq] at h
      rw [← h]
      simp only [Bool.and_eq_true, beq_iff_eq, decide_eq_true_eq] at hc
      exact ⟨z0, by simp, hc.1, hc.2⟩
    · simp only [findAvailableZone, if_neg hc] at h
      cases ht : findAvailableZone zoneType rest with
      | none => rw [ht] at h; simp at h
      | some t0 =>
        rw [ht] at h
        simp only [Option.map_some', Option.some.injEq] at h
        rw [← h]
        obtain ⟨z, hz1, hz2, hz3⟩ := ih ht
        exact ⟨z, by simpa using hz1, hz2, hz3⟩

theorem detachFirst_mem {i : Nat} {zs : List Zone} {zNew : Zone}
    (h : zNew ∈ detachFirst i zs) :
    ∃ z ∈ zs, zNew.capacity = z.capacity ∧ zNew.occupants.length ≤ z.occupants.length := by
  induction zs with
  | nil => simp [detachFirst] at h
  | cons z rest ih =>
    by_cases hz : i ∈ z.occupants
    · simp only [detachFirst, hz, List.elem_eq_mem, decide_eq_true_eq, if_true, ite_true,
        List.mem_cons] at h
      rcases h with h | h
      · exact ⟨z, List.mem_cons_self z rest, by rw [h]; exact rfl,
          by rw [h]; exact removeFirst_length_le i _⟩
      · exact ⟨zNew, List.mem_cons_of_mem z h, rfl, Nat.le_refl _⟩
    · simp only [detachFirst, hz, List.elem_eq_mem, decide_eq_true_eq, if_false, ite_false,
        List.mem_cons] at h
      rcases h with h | h
      · exact ⟨z, List.mem_cons_self z rest, by rw [h], by rw [h]⟩
      · obtain ⟨z0, hz0, hc, hl⟩ := ih h
        exact ⟨z0, List.mem_cons_of_mem z hz0, hc, hl⟩

theorem zoneCapacityOr1_eq {zone : Zone} (h : 1 ≤ zone.capacity) :
    zoneCapacityOr1 zone = zone.capacity := by
  unfold zoneCapacityOr1
  rw [if_neg]
  omega

theorem planMovementPath_state (item : Item) (targetZoneType : String) (gs : GameState) :
    (planMovementPath item targetZoneType gs).2 = gs := by
  unfold planMovementPath
  cases findItemCurrentZone item gs with
  | none => rfl
  | some currentZone =>
    dsimp only
    split_ifs <;> rfl

theorem performMovement_fail {item : Item} {targetZoneType : String} {gs gs2 : GameState}
    {plan : MovementPlan}
    (h : performMovement item targetZoneType gs plan = (false, gs2)) : gs2 = gs := by
  unfold performMovement at h
  cases hf : findAvailableZone targetZoneType gs.zones with
  | none => rw [hf] at h; cases h; rfl
  | some targetIdx =>
    rw [hf] at h
    dsimp only at h
    cases hz : (detachFirst item.id gs.zones)[targetIdx]? with
    | none => rw [hz] at h; cases h; rfl
    | some targetZone =>
      rw [hz] at h
      simp only [addToZone] at h
      cases h

theorem performMovement_zones {item : Item} {targetZoneType : String} {gs gs2 : GameState}
    {plan : MovementPlan}
    (h : performMovement item targetZoneType gs plan = (true, gs2)) :
    ∃ targetIdx zOld,
      findAvailableZone targetZoneType gs.zones = some targetIdx ∧
      (detachFirst item.id gs.zones)[targetIdx]? = some zOld ∧
      gs2.zones = (detachFirst item.id gs.zones).set targetIdx
        { zOld with occupants := zOld.occupants ++ [item.id] } := by
  unfold performMovement at h
  cases hf : findAvailableZone targetZoneType gs.zones with
  | none => rw [hf] at h; cases h
  | some targetIdx =>
    rw [hf] at h
    dsimp only at h
    cases hz : (detachFirst item.id gs.zones)[targetIdx]? with
    | none => rw [hz] at h; cases h
    | some targetZone =>
      rw [hz] at h
      simp only [addToZone] at h
      cases h
      exact ⟨targetIdx, targetZone, rfl, hz, rfl⟩

theorem performMovement_preserves {item : Item} {targetZoneType : String} {gs : GameState}
    {plan : MovementPlan}
    (hexc : ExclusiveCount gs) (hcap : CapacityOk gs) (hone : CapacityAtLeastOne gs) :
    ExclusiveCount (performMovement item targetZoneType gs plan).2 ∧
      CapacityOk (performMovement item targetZoneType gs plan).2 := by
  rcases hres : performMovement item targetZoneType gs plan with ⟨b, gs2⟩
  cases b with
  | false =>
    rw [performMovement_fail hres]
    exact ⟨hexc, hcap⟩
  | true =>
    obtain ⟨targetIdx, zOld, hf, hz, hzones⟩ := performMovement_zones hres
    obtain ⟨zT, hzT, htype, hlt⟩ := findAvailableZone_spec hf
    obtain ⟨hceq, hlenle⟩ := detachFirst_pointwise item.id gs.zones targetIdx hz hzT
    have hTmem : zT ∈ gs.zones := List.getElem?_mem hzT
    have hT1 : 1 ≤ zT.capacity := hone zT hTmem
    rw [zoneCapacityOr1_eq hT1] at hlt
    constructor
    · intro j
      have hset := itemCountIn_set j
        { zOld with occupants := zOld.occupants ++ [item.id] } hz
      simp only [List.count_append, List.count_singleton, beq_iff_eq] at hset
      by_cases hj : item.id = j
      · subst hj
        have h1 : itemCountIn item.id (detachFirst item.id gs.zones) =
            itemCountIn item.id gs.zones - 1 :=
          detachFirst_countIn_self item.id gs.zones
        have h2 : itemCountIn item.id gs.zones ≤ 1 := hexc item.id
        have h3 : zOld.occupants.count item.id ≤
            itemCountIn item.id (detachFirst item.id gs.zones) :=
          count_le_itemCountIn hz
        simp only [eq_self_iff_true, if_true, if_pos] at hset
        simp only [hzones]
        omega
      · have h1 : itemCountIn j (detachFirst item.id gs.zones) = itemCountIn j gs.zones :=
          detachFirst_countIn_ne (fun hc => hj hc.symm) gs.zones
        have h2 : itemCountIn j gs.zones ≤ 1 := hexc j
        rw [if_neg hj] at hset
        simp only [hzones]
        omega
    · intro z hmem
      rw [hzones] at hmem
      rcases List.mem_or_eq_of_mem_set hmem with hmem1 | heq
      · obtain ⟨z0, hz0, hc0, hl0⟩ := detachFirst_mem hmem1
        have := hcap z0 hz0
        omega
      · subst heq
        simp only [List.length_append, List.length_singleton]
        omega

theorem executeMovement_preserves (item : Item) (targetZoneType : String) (gs : GameState)
    (hexc : ExclusiveCount gs) (hcap : CapacityOk gs) (hone : CapacityAtLeastOne gs) :
    ExclusiveCount (executeMovement item targetZoneType gs).2 ∧
      CapacityOk (executeMovement item targetZoneType gs).2 := by
  simp only [executeMovement, planMovementPath_state]
  cases (planMovementPath item targetZoneType gs).1 with
  | none => exact ⟨hexc, hcap⟩
  | some movementPlan =>
    dsimp only
    split_ifs
    · exact ⟨hexc, hcap⟩
    · exact performMovement_preserves hexc hcap hone

theorem executeMovement_fail {item : Item} {targetZoneType : String} {gs gs2 : GameState}
    (h : executeMovement item targetZoneType gs = (false, gs2)) : gs2 = gs := by
  simp only [executeMovement, planMovementPath_state] at h
  cases hp : (planMovementPath item targetZoneType gs).1 with
  | none => rw [hp] at h; cases h; rfl
  | some movementPlan =>
    rw [hp] at h
    dsimp only at h
    split_ifs at h
    · cases h; rfl
    · exact performMovement_fail h

theorem executeMovement_unknownZone {item : Item} {destination : String} {gs : GameState}
    (h : findItemCurrentZone item gs = none) :
    executeMovement item destination gs = (false, gs) := by
  have hplan : planMovementPath item destination gs = (none, gs) := by
    unfold planMovementPath
    rw [h]
  simp only [executeMovement, hplan]

theorem isMovementAllowed_iff_edge {a b : String} :
    isMovementAllowed a b = true ↔ RuleEdge a b := by
  unfold isMovementAllowed RuleEdge getValidDestinations
  cases movementRules a with
  | none => simp
  | some allowedDestinations => simp

theorem planMovementPath_isSome_iff {item : Item} {targetZoneType : String} {gs : GameState}
    {currentZone : Zone} (h : findItemCurrentZone item gs = some currentZone) :
    ((planMovementPath item targetZoneType gs).1.isSome = true ↔
      (RuleReach (getZoneTypeFromZone currentZone) targetZoneType ∨
        (getZoneTypeFromZone currentZone = targetZoneType ∧
          canMoveBetweenSameType (getZoneTypeFromZone currentZone) item.hardwareType = true))) := by
  unfold planMovementPath
  rw [h]
  dsimp only
  split_ifs with hdir hsame
  · simp only [Option.isSome_some, true_iff]
    exact Or.inl (Relation.TransGen.single (isMovementAllowed_iff_edge.mp hdir))
  · simp only [Option.isSome_some, true_iff]
    simp only [Bool.and_eq_true, beq_iff_eq] at hsame
    exact Or.inr hsame
  · rw [findIndirectPath_eq, bfsResult_isSome_eq]
    simp only [Bool.and_eq_true, beq_iff_eq, not_and] at hsame
    constructor
    · intro ht
      exact Or.inl (table_to_ruleReach ht)
    · rintro (hreach | ⟨heq, hsm⟩)
      · exact ruleReach_to_table hreach
      · exact absurd hsm (hsame heq)

theorem planMovementPath_time {item : Item} {targetZoneType : String} {gs : GameState}
    {plan : MovementPlan} (h : (planMovementPath item targetZoneType gs).1 = some plan) :
    plan.estimatedTime = pathTimeSum plan.path := by
  unfold planMovementPath at h
  cases hz : findItemCurrentZone item gs with
  | none => rw [hz] at h; cases h
  | some currentZone =>
    rw [hz] at h
    dsimp only at h
    split_ifs at h
    · cases h
      simp [pathTimeSum]
    · cases h
      simp [pathTimeSum]
    · rw [findIndirectPath_eq] at h
      exact bfsResult_time h

theorem itemCountIn_eq_count_flatten (i : Nat) (zs : List Zone) :
    itemCountIn i zs = ((zs.map (fun zone => zone.occupants)).flatten).count i := by
  induction zs with
  | nil => rfl
  | cons z rest ih =>
    simp only [itemCountIn, List.map_cons, List.sum_cons, List.flatten_cons,
      List.count_append] at ih ⊢
    omega

theorem exclusiveCount_iff_nodup (gs : GameState) :
    ExclusiveCount gs ↔ ((gs.zones.map (fun zone => zone.occupants)).flatten).Nodup := by
  rw [List.nodup_iff_count_le_one]
  constructor
  · intro h i
    rw [← itemCountIn_eq_count_flatten]
    exact h i
  · intro h i
    rw [itemCountIn_eq_count_flatten]
    exact h i

theorem appearsAtMostOneZone_of_bounded (gs : GameState)
    (h : ∀ i ∈ (gs.zones.map (fun zone => zone.occupants)).flatten,
      gs.zones.countP (fun zone => zone.occupants.contains i) ≤ 1) :
    AppearsAtMostOneZone gs := by
  intro i
  by_cases hmem : i ∈ (gs.zones.map (fun zone => zone.occupants)).flatten
  · exact h i hmem
  · have hz : gs.zones.countP (fun zone => zone.occupants.contains i) = 0 := by
      rw [List.countP_eq_zero]
      intro z hzmem hc
      simp only [List.elem_eq_mem, decide_eq_true_eq, List.contains_eq_any_beq] at hc
      exact hmem (by
        simp only [List.mem_flatten]
        exact ⟨z.occupants, List.mem_map_of_mem (fun zone => zone.occupants) hzmem, by
          simpa using hc⟩)
    omega

theorem movementLegal_characterization (fromType toType hardwareType : String) :
    movementLegal fromType toType hardwareType = true ↔
      ((fromType = "loading-dock" ∧ toType = "qc-station") ∨
       (fromType = "loading-dock" ∧ toType = "loading-dock") ∨
       (fromType = "qc-station" ∧ toType = "storage-bin") ∨
       (fromType = "qc-station" ∧ toType = "recycle-bin") ∨
       (fromType = "storage-bin" ∧ toType = "server-rack") ∨
       (fromType = "storage-bin" ∧ toType = "storage-bin") ∨
       (fromType = "server-rack" ∧ toType = "recycle-bin")) := by
  constructor
  · intro h
    simp only [movementLegal, Bool.or_eq_true, Bool.and_eq_true, beq_iff_eq] at h
    rcases h with h | ⟨heq, hsame⟩
    · rcases ruleEdge_cases (isMovementAllowed_iff_edge.mp h) with
        ⟨h1, h2⟩ | ⟨h1, h2⟩ | ⟨h1, h2⟩ | ⟨h1, h2⟩ | ⟨h1, h2⟩ | ⟨h1, h2⟩ <;> tauto
    · simp only [canMoveBetweenSameType, List.contains_eq_any_beq, List.any_cons,
        List.any_nil, Bool.or_eq_true, beq_iff_eq] at hsame
      rcases hsame with hsame | hsame | hsame
      · subst hsame; subst heq; tauto
      · subst hsame; subst heq; tauto
      · cases hsame
  · rintro (⟨h1, h2⟩ | ⟨h1, h2⟩ | ⟨h1, h2⟩ | ⟨h1, h2⟩ | ⟨h1, h2⟩ | ⟨h1, h2⟩ | ⟨h1, h2⟩) <;>
      subst h1 <;> subst h2 <;> rfl

theorem processQCQueue_spec {item : Item} {rest : List Item} {gs : GameState}
    {qcStation : Zone} (passDraw : ℚ) (issueDraw : Nat)
    (hfind : gs.zones.find? (fun zone => zone.type == "quality-control") = some qcStation)
    (hcap : qcStation.occupants.length < qcStation.capacity) :
    processQCQueue (item :: rest) gs passDraw issueDraw =
      (rest, gs, some ({ item := item,
                         destination :=
                           (if passDraw < qcPassRate then "storage-bin" else "recycle-bin"),
                         delayMs := 30000 } : ScheduledMove)) := by
  unfold processQCQueue
  rw [hfind]
  dsimp only
  rw [if_neg (Nat.not_le.mpr hcap)]
  by_cases hp : passDraw < qcPassRate
  · simp only [makeQCDecision, decide_eq_true hp, if_pos hp, qcProcessingTime, if_true]
  · simp only [makeQCDecision, decide_eq_false hp, if_neg hp, qcProcessingTime]
    rfl

theorem processRecyclingQueue_spec (queue : List RecyclingEntry) (gs : GameState) :
    (processRecyclingQueue queue gs).queue = [] ∧
    (processRecyclingQueue queue gs).scheduled = [] ∧
    (processRecyclingQueue queue gs).gs =
      queue.foldl (fun g e => (executeMovement e.item "recycle-bin" g).2) gs := by
  induction queue generalizing gs with
  | nil => exact ⟨rfl, rfl, rfl⟩
  | cons entry rest ih =>
    simp only [processRecyclingQueue, List.foldl_cons]
    exact ih (executeMovement entry.item "recycle-bin" gs).2

theorem countP_contains_le_itemCountIn (i : Nat) (zs : List Zone) :
    zs.countP (fun zone => zone.occupants.contains i) ≤ itemCountIn i zs := by
  induction zs with
  | nil => exact Nat.le_refl 0
  | cons z rest ih =>
    rw [List.countP_cons]
    simp only [itemCountIn, List.map_cons, List.sum_cons]
    by_cases hz : i ∈ z.occupants
    · have h1 : 1 ≤ z.occupants.count i := count_pos_of_mem hz
      have h2 : (fun zone => zone.occupants.contains i) z = true := by
        simpa using hz
      rw [if_pos h2]
      simp only [itemCountIn] at ih
      omega
    · have h2 : ¬((fun zone => zone.occupants.contains i) z = true) := by
        simpa using hz
      rw [if_neg h2]
      simp only [itemCountIn] at ih
      omega

theorem appears_of_exclusive {gs : GameState} (h : ExclusiveCount gs) :
    AppearsAtMostOneZone gs :=
  fun i => Nat.le_trans (countP_contains_le_itemCountIn i gs.zones) (h i)

theorem checkRRFailure_noInstall {item : Item} (now : Int) (failDraw : ℚ)
    (reasonDraw : Nat) (severityDraw : ℚ)
    (hInstall : item.installTime = none) (hDraw : 0 ≤ failDraw) :
    hoursSinceInstall item now = 0 ∧ adjustedFailureRate item now = 0 ∧
      checkRRFailure item now failDraw reasonDraw severityDraw = none := by
  have h1 : installTimeOrNow item now = now := by
    unfold installTimeOrNow
    rw [hInstall]
  have h2 : hoursSinceInstall item now = 0 := by
    unfold hoursSinceInstall
    rw [h1]
    simp
  have h3 : adjustedFailureRate item now = 0 := by
    unfold adjustedFailureRate failureRate
    rw [h2]
    ring
  refine ⟨h2, h3, ?_⟩
  unfold checkRRFailure
  rw [h3, if_neg (not_lt.mpr hDraw)]

/-- Claim C1 (counterexample): with the precondition exactly as stated —
each item appears in the occupant list of at most one zone, and
`occupants.length <= capacity` everywhere — a dock whose list holds the same
id twice satisfies it, yet after `executeMovement` the item appears in two
zones. -/
theorem claim_C1_counterexample :
    AppearsAtMostOneZone gsDup ∧ CapacityOk gsDup ∧ CapacityAtLeastOne gsDup ∧
      ¬ AppearsAtMostOneZone (executeMovement dupItem "qc-station" gsDup).2 := by
  refine ⟨appearsAtMostOneZone_of_bounded _ (by decide), by unfold CapacityOk; decide,
    by unfold CapacityAtLeastOne; decide, fun h => absurd (h 1) (by decide)⟩

/-- Claim C1 (amended): if before the call every item occurs at most once
across all occupant lists (counting multiplicity), every capacity is at
least 1, and every zone satisfies `occupants.length <= capacity`, then after
`executeMovement` (whether it returns true or false) every item still occurs
at most once — in particular it appears in at most one zone — and every zone
still satisfies `occupants.length <= capacity`. -/
theorem claim_C1_amended (item : Item) (targetZoneType : String) (gs : GameState)
    (hexc : ExclusiveCount gs) (hcap : CapacityOk gs) (hone : CapacityAtLeastOne gs) :
    ExclusiveCount (executeMovement item targetZoneType gs).2 ∧
      CapacityOk (executeMovement item targetZoneType gs).2 ∧
      AppearsAtMostOneZone (executeMovement item targetZoneType gs).2 := by
  obtain ⟨h1, h2⟩ := executeMovement_preserves item targetZoneType gs hexc hcap hone
  exact ⟨h1, h2, appears_of_exclusive h1⟩

theorem claim_C1_witness :
    (ExclusiveCount gsSolo ∧ CapacityOk gsSolo ∧ CapacityAtLeastOne gsSolo) ∧
      (ExclusiveCount (executeMovement soloItem "qc-station" gsSolo).2 ∧
        CapacityOk (executeMovement soloItem "qc-station" gsSolo).2 ∧
        AppearsAtMostOneZone (executeMovement soloItem "qc-station" gsSolo).2) := by
  have h1 : ExclusiveCount gsSolo := (exclusiveCount_iff_nodup gsSolo).mpr (by decide)
  have h2 : CapacityOk gsSolo := by unfold CapacityOk; decide
  have h3 : CapacityAtLeastOne gsSolo := by unfold CapacityAtLeastOne; decide
  exact ⟨⟨h1, h2, h3⟩, claim_C1_amended soloItem "qc-station" gsSolo h1 h2 h3⟩

/-- Claim C2: a failed `executeMovement` leaves the whole game state — the
item collection, every zone's occupant list, every location label —
unchanged. -/
theorem claim_C2_no_partial_mutation (item : Item) (targetZoneType : String)
    (gs gs2 : GameState) (h : executeMovement item targetZoneType gs = (false, gs2)) :
    gs2 = gs :=
  executeMovement_fail h

theorem claim_C2_witness :
    executeMovement soloItem "qc-station" gsFull = (false, gsFull) ∧ gsFull = gsFull :=
  ⟨by decide, claim_C2_no_partial_mutation soloItem "qc-station" gsFull gsFull (by decide)⟩

/-- Claim C3 (counterexample): the rule table allows the storage-bin to
storage-bin transition, the same-type whitelist covers storage bins too,
there is no `removed` pseudo-transition out of the recycle sink, and
dock-to-dock is not in the rule table itself. -/
theorem claim_C3_counterexample :
    isMovementAllowed "storage-bin" "storage-bin" = true ∧
      canMoveBetweenSameType "storage-bin" "HDD" = true ∧
      movementLegal "storage-bin" "storage-bin" "HDD" = true ∧
      isMovementAllowed "recycle-bin" "removed" = false ∧
      movementLegal "recycle-bin" "removed" "HDD" = false ∧
      isMovementAllowed "loading-dock" "loading-dock" = false := by
  decide

/-- Claim C3 (amended): the combined legality test (`isMovementAllowed`
together with `canMoveBetweenSameType`) matches the topology actually coded:
dock feeds inspection and dock (as a whitelisted same-type move); inspection
feeds storage-bin and recycle-sink; storage-bin feeds rack-slot and
storage-bin (legal both in the table and by whitelist); rack-slot feeds
recycle-sink; recycle-sink feeds nothing — there is no removed
pseudo-transition. -/
theorem claim_C3_amended (fromType toType hardwareType : String) :
    movementLegal fromType toType hardwareType = true ↔
      ((fromType = "loading-dock" ∧ toType = "qc-station") ∨
       (fromType = "loading-dock" ∧ toType = "loading-dock") ∨
       (fromType = "qc-station" ∧ toType = "storage-bin") ∨
       (fromType = "qc-station" ∧ toType = "recycle-bin") ∨
       (fromType = "storage-bin" ∧ toType = "server-rack") ∨
       (fromType = "storage-bin" ∧ toType = "storage-bin") ∨
       (fromType = "server-rack" ∧ toType = "recycle-bin")) :=
  movementLegal_characterization fromType toType hardwareType

/-- Claim C4 (counterexample): for an item sitting in a dock, requesting the
dock type itself returns a plan through the same-type branch although no
path exists in the rule graph from `loading-dock` to `loading-dock` — the
stated if-and-only-if with BFS reachability fails. -/
theorem claim_C4_counterexample :
    findItemCurrentZone soloItem gsSolo = some soloDock ∧
      (planMovementPath soloItem "loading-dock" gsSolo).1.isSome = true ∧
      ¬ RuleReach "loading-dock" "loading-dock" := by
  refine ⟨rfl, by decide, fun h => absurd (ruleReach_to_table h) (by decide)⟩

/-- Claim C4 (amended): for an item contained in some zone,
`planMovementPath` returns a plan if and only if either a path exists in the
rule graph from the item's current zone type to the destination type, or the
two types are equal and whitelisted for same-type transfer; and every
returned plan's estimated time is the sum of the per-edge time estimates
along its path. -/
theorem claim_C4_amended (item : Item) (targetZoneType : String) (gs : GameState)
    (currentZone : Zone) (h : findItemCurrentZone item gs = some currentZone) :
    ((planMovementPath item targetZoneType gs).1.isSome = true ↔
      (RuleReach (getZoneTypeFromZone currentZone) targetZoneType ∨
        (getZoneTypeFromZone currentZone = targetZoneType ∧
          canMoveBetweenSameType (getZoneTypeFromZone currentZone) item.hardwareType = true))) ∧
    (∀ plan : MovementPlan, (planMovementPath item targetZoneType gs).1 = some plan →
      plan.estimatedTime = pathTimeSum plan.path) :=
  ⟨planMovementPath_isSome_iff h, fun _ hp => planMovementPath_time hp⟩

theorem claim_C4_witness :
    findItemCurrentZone soloItem gsSolo = some soloDock ∧
      (((planMovementPath soloItem "storage-bin" gsSolo).1.isSome = true ↔
        (RuleReach (getZoneTypeFromZone soloDock) "storage-bin" ∨
          (getZoneTypeFromZone soloDock = "storage-bin" ∧
            canMoveBetweenSameType (getZoneTypeFromZone soloDock) soloItem.hardwareType = true))) ∧
      (∀ plan : MovementPlan, (planMovementPath soloItem "storage-bin" gsSolo).1 = some plan →
        plan.estimatedTime = pathTimeSum plan.path)) :=
  ⟨rfl, claim_C4_amended soloItem "storage-bin" gsSolo soloDock rfl⟩

/-- Claim C5 (counterexample): with a non-empty queue and an empty
`quality-control` zone with spare capacity, the drain step dequeues the head
item but never moves it into the inspection zone: the game state is
returned unchanged and the item occupies no zone of the result (it was in
the dock's list, which is also untouched — here we check the inspection
zone's occupant list stays empty). -/
theorem claim_C5_counterexample :
    gsQC.zones.find? (fun zone => zone.type == "quality-control") = some rawQCZone ∧
      rawQCZone.occupants.length < rawQCZone.capacity ∧
      (processQCQueue [queuedItem] gsQC (1/2) 0).2.1 = gsQC ∧
      ((processQCQueue [queuedItem] gsQC (1/2) 0).2.1.zones.filter
          (fun zone => zone.type == "quality-control")).all
        (fun zone => zone.occupants.isEmpty) = true := by
  refine ⟨by decide, by decide, ?_, ?_⟩ <;> decide

/-- Claim C5 (amended): if the queue is non-empty and the first registry
zone of raw type `quality-control` has spare capacity, one drain step
dequeues the head item, leaves the entire game state unchanged (the item is
not moved into the inspection zone), resolves the verdict immediately, and
schedules a Movement Executor invocation after the 30-second processing time
toward `storage-bin` when the pass draw is below the pass rate and toward
`recycle-bin` otherwise. -/
theorem claim_C5_amended (item : Item) (rest : List Item) (gs : GameState)
    (qcStation : Zone) (passDraw : ℚ) (issueDraw : Nat)
    (hfind : gs.zones.find? (fun zone => zone.type == "quality-control") = some qcStation)
    (hcap : qcStation.occupants.length < qcStation.capacity) :
    processQCQueue (item :: rest) gs passDraw issueDraw =
      (rest, gs, some ({ item := item,
                         destination :=
                           (if passDraw < qcPassRate then "storage-bin" else "recycle-bin"),
                         delayMs := 30000 } : ScheduledMove)) :=
  processQCQueue_spec passDraw issueDraw hfind hcap

theorem claim_C5_witness :
    gsQC.zones.find? (fun zone => zone.type == "quality-control") = some rawQCZone ∧
      rawQCZone.occupants.length < rawQCZone.capacity ∧
      processQCQueue [queuedItem] gsQC (1/2) 0 =
        ([], gsQC, some ({ item := queuedItem,
                           destination :=
                             (if (1/2 : ℚ) < qcPassRate then "storage-bin" else "recycle-bin"),
                           delayMs := 30000 } : ScheduledMove)) :=
  ⟨by decide, by decide,
    claim_C5_amended queuedItem [] gsQC rawQCZone (1/2) 0 (by decide) (by decide)⟩

/-- Claim C6 (counterexample): draining a one-entry recycling queue moves
the failed item to the recycle sink (the movement succeeds and the recycled
counter increments), but no follow-up removal is scheduled, and the item
still occupies a zone and is still present in the item collection. -/
theorem claim_C6_counterexample :
    (processRecyclingQueue [failedEntry] gsRecycle).recycled = 1 ∧
      (processRecyclingQueue [failedEntry] gsRecycle).scheduled = [] ∧
      (processRecyclingQueue [failedEntry] gsRecycle).gs.zones.countP
        (fun zone => zone.occupants.contains 7) = 1 ∧
      (processRecyclingQueue [failedEntry] gsRecycle).gs.items.any
        (fun it => it.id == 7) = true := by
  refine ⟨?_, ?_, ?_, ?_⟩ <;> decide

/-- Claim C6 (amended): `processRecyclingQueue` drains the whole queue,
invoking the Movement Executor toward `recycle-bin` once per entry in order;
it never schedules any deferred removal, so a successfully recycled item
remains in the recycle sink's occupant list and in the item collection. -/
theorem claim_C6_amended (queue : List RecyclingEntry) (gs : GameState) :
    (processRecyclingQueue queue gs).queue = [] ∧
      (processRecyclingQueue queue gs).scheduled = [] ∧
      (processRecyclingQueue queue gs).gs =
        queue.foldl (fun g e => (executeMovement e.item "recycle-bin" g).2) gs :=
  processRecyclingQueue_spec queue gs

/-- Claim C7 (counterexample): the item occupies no zone, a recycle sink
with room exists, yet the Movement Executor invocation toward `recycle-bin`
fails instead of succeeding as a terminal escape hatch. -/
theorem claim_C7_counterexample :
    gsLost.zones.countP (fun zone => zone.occupants.contains 9) = 0 ∧
      (findAvailableZone "recycle-bin" gsLost.zones).isSome = true ∧
      (executeMovement lostItem "recycle-bin" gsLost).1 = false := by
  refine ⟨?_, ?_, ?_⟩ <;> decide

/-- Claim C7 (amended): when the item's current zone cannot be located, the
planner returns no plan and `executeMovement` fails with the state
unchanged, for every destination — including `recycle-bin`; there is no
terminal escape hatch. -/
theorem claim_C7_amended (item : Item) (destination : String) (gs : GameState)
    (h : findItemCurrentZone item gs = none) :
    executeMovement item destination gs = (false, gs) :=
  executeMovement_unknownZone h

theorem claim_C7_witness :
    findItemCurrentZone lostItem gsLost = none ∧
      executeMovement lostItem "recycle-bin" gsLost = (false, gsLost) :=
  ⟨by decide, claim_C7_amended lostItem "recycle-bin" gsLost (by decide)⟩

/-- Claim C8: the path planner mutates nothing: the state it returns is the
very state it was given, for every item, destination and registry. -/
theorem claim_C8_planner_pure (item : Item) (targetZoneType : String) (gs : GameState) :
    (planMovementPath item targetZoneType gs).2 = gs :=
  planMovementPath_state item targetZoneType gs

/-- Claim C9: a rack occupant with an unset install timestamp is treated as
installed now: zero elapsed hours, zero adjusted failure probability, and no
failure report, for every non-negative failure draw. -/
theorem claim_C9_no_install_timestamp (item : Item) (now : Int) (failDraw : ℚ)
    (reasonDraw : Nat) (severityDraw : ℚ)
    (hInstall : item.installTime = none) (hDraw : 0 ≤ failDraw) :
    hoursSinceInstall item now = 0 ∧ adjustedFailureRate item now = 0 ∧
      checkRRFailure item now failDraw reasonDraw severityDraw = none :=
  checkRRFailure_noInstall now failDraw reasonDraw severityDraw hInstall hDraw

theorem claim_C9_witness :
    freshItem.installTime = none ∧ (0 : ℚ) ≤ 1/3 ∧
      (hoursSinceInstall freshItem 1700000000 = 0 ∧
        adjustedFailureRate freshItem 1700000000 = 0 ∧
        checkRRFailure freshItem 1700000000 (1/3) 2 (1/2) = none) :=
  ⟨rfl, by norm_num,
    claim_C9_no_install_timestamp freshItem 1700000000 (1/3) 2 (1/2) rfl (by norm_num)⟩

/-- Claim C10: the breadth-first search of `findIndirectPath` terminates for
every pair of zone types: each zone type enters the visited set at most once
before being enqueued, so fuel 6 always suffices for the work loop to return
a definite answer — a path or null — and `findIndirectPath` equals it. -/
theorem claim_C10_bfs_terminates (fromZone toZone : String) :
    ∃ result : Option MovementPlan,
      bfsLoop toZone 6 [{ zone := fromZone, path := [fromZone], time := 0 }] [fromZone] =
        some result ∧ findIndirectPath fromZone toZone = result :=
  ⟨bfsResult fromZone toZone, bfsLoop_eval fromZone toZone, findIndirectPath_eq fromZone toZone⟩
